import Mathlib

/-!
Shallow embedding of the fracture-parameter extraction engine of
crackpy (file crackpy/fracture_analysis/analysis.py, class FractureAnalysis).

Modelling conventions:

* A Python/numpy float value is modelled as an element of Option Rat,
  with none standing for IEEE NaN and some q for a finite value q.
  The code never produces infinities on the paths under study, and NaN is
  only inspected through the numpy nan-aware reductions (np.nanmean,
  np.nanmedian) and through comparisons, whose NaN behaviour
  (every comparison with NaN is False) is reproduced explicitly below.
* The external optimizer (Optimization.optimize_cjp_displacements and
  optimize_williams_displacements) and the external line-integral service
  (calculate_line_integral) are collaborators outside this repository.
  Their per-call behaviour enters the model as explicit inputs: an
  Except Unit (List Rat x Rat) outcome for an optimizer call (error
  standing for a raised exception, ok for a returned coefficient vector
  together with the residual cost), and a total function for the
  line-integral service.  A raised Python exception inside a try block is
  modelled as Option/Except failure.
* Result records (CJPResults, the dynamically created Williams model,
  SIFsIntegral*Results) are modelled as Lean structures over Option-valued
  fields; purely observational trace fields (integration point
  coordinates, tick sizes, node counts) that no claim touches are omitted.
-/

/-- The finite (non-NaN) entries of a float vector, in order. -/
def someVals : List (Option ℚ) → List ℚ
  | [] => []
  | none :: xs => someVals xs
  | some v :: xs => v :: someVals xs

/-- Absolute value of a float, np.abs; written with an explicit sign test
so that concrete instances evaluate by rewriting. -/
def ratAbs (q : ℚ) : ℚ := if q < 0 then -q else q

theorem ratAbs_eq_abs (q : ℚ) : ratAbs q = |q| := by
  unfold ratAbs
  rcases lt_or_le q 0 with h | h
  · rw [if_pos h, abs_of_neg h]
  · rw [if_neg (not_lt.mpr h), abs_of_nonneg h]

/-- np.nanmean of a 1-d float vector: arithmetic mean of the non-NaN
entries, NaN when there is no valid entry. -/
def nanmeanCol (xs : List (Option ℚ)) : Option ℚ :=
  match someVals xs with
  | [] => none
  | v :: vs => some ((v :: vs).sum / ((v :: vs).length : ℚ))

/-- Median entry (or mean of the two middle entries) of a sorted list,
extracted with a slow/fast pointer pair: the first argument is the slow
pointer, the second the fast pointer consuming two cells per step.
Called with the same sorted list twice it yields the element at index
length / 2 for odd length and the average of the elements at indices
length / 2 - 1 and length / 2 for even positive length, exactly the
interpolation used by np.nanmedian. -/
def medianAux : List ℚ → List ℚ → Option ℚ
  | x :: _, [_] => some x
  | x :: y :: _, [_, _] => some ((x + y) / 2)
  | _ :: xs, _ :: _ :: fast => medianAux xs fast
  | _, _ => none

/-- np.nanmedian of a 1-d float vector: median of the non-NaN entries
(average of the two middle entries for an even count), NaN when there is
no valid entry. -/
def nanmedianCol (xs : List (Option ℚ)) : Option ℚ :=
  medianAux (List.insertionSort (fun a b => a ≤ b) (someVals xs))
    (List.insertionSort (fun a b => a ≤ b) (someVals xs))

/-- One entry of d = np.abs(data_i - np.nanmedian(data_i)) in
FractureAnalysis.mean_wo_outliers: NaN when the entry or the median is
NaN, the absolute deviation otherwise. -/
def devOf (med x : Option ℚ) : Option ℚ :=
  match x, med with
  | some v, some mv => some (ratAbs (v - mv))
  | _, _ => none

/-- The elementwise boolean mask s < m of mean_wo_outliers in the branch
where the median absolute deviation mdev is a nonzero number dv: an entry
is kept when its scaled deviation is a number strictly below m; a NaN
scaled deviation compares as False, so the entry is dropped. -/
def outlierKeep (med : Option ℚ) (dv m : ℚ) (x : Option ℚ) : Bool :=
  match devOf med x with
  | some dx => decide (dx / dv < m)
  | none => false

/-- One column of FractureAnalysis.mean_wo_outliers (the loop body for a
single data_i of data.T):

* d = np.abs(data_i - np.nanmedian(data_i)), mdev = np.nanmedian(d);
* Python evaluates the truthiness of mdev: NaN is truthy, so s = d/mdev
  is all-NaN, every comparison s < m is False and the selection is empty;
* mdev == 0.0 is falsy, so s is the scalar 0 and the mask is the scalar
  truth value of 0 < m, selecting either every entry or none;
* otherwise s = d/mdev elementwise and entries with s < m are kept;
* the selected entries are reduced with np.nanmean. -/
def meanWoOutliersCol (m : ℚ) (xs : List (Option ℚ)) : Option ℚ :=
  match nanmedianCol (xs.map (devOf (nanmedianCol xs))) with
  | none => nanmeanCol []
  | some dv =>
      if dv = 0 then (if 0 < m then nanmeanCol xs else nanmeanCol [])
      else nanmeanCol (xs.filter (outlierKeep (nanmedianCol xs) dv m))

example : nanmeanCol [some 1, none, some 3] = some 2 := by
  norm_num [nanmeanCol, someVals]
example : nanmeanCol [none, none] = none := by norm_num [nanmeanCol, someVals]
example : nanmedianCol [some 1, some 7, some 3] = some 3 := by
  norm_num [nanmedianCol, someVals, medianAux]
example : nanmedianCol [some 1, none, some 3] = some 2 := by
  norm_num [nanmedianCol, someVals, medianAux]
example : meanWoOutliersCol 2 [some 1, some 1, some 3] = some (5/3) := by
  norm_num [meanWoOutliersCol, nanmedianCol, nanmeanCol, someVals, medianAux, devOf,
    outlierKeep, ratAbs]
example : meanWoOutliersCol 2 [some 1, some 2, some 3, some 100] = some 2 := by
  norm_num [meanWoOutliersCol, nanmedianCol, nanmeanCol, someVals, medianAux, devOf,
    outlierKeep, ratAbs]

/-- Result record of the CJP fit, mirroring
crackpy.structure_elements.results.CJPResults: one float field per
physical parameter; none models np.nan. -/
structure CJPResults where
  error : Option ℝ
  K_F : Option ℝ
  K_R : Option ℝ
  K_S : Option ℝ
  K_II : Option ℝ
  K_eff_Yang : Option ℝ
  K_eff_Nowell : Option ℝ
  T : Option ℝ

/-- The all-NaN CJPResults built by the except branch of
FractureAnalysis._run_cjp_optimization. -/
def cjpSentinel : CJPResults :=
  { error := none, K_F := none, K_R := none, K_S := none, K_II := none,
    K_eff_Yang := none, K_eff_Nowell := none, T := none }

/-- Successful body of _run_cjp_optimization for coefficients
(A_r, B_r, B_i, C, E) and optimizer cost: the Christopher et al. (2013)
formulas followed by the m-to-mm division of every K by sqrt(1000);
T = -C is not divided.  K_eff_Yang and K_eff_Nowell are emitted as np.nan
unconditionally. -/
noncomputable def cjpFromCoefficients (A_r B_r B_i C E cost : ℚ) : CJPResults :=
  { error := some (cost : ℝ)
    K_F := some (Real.sqrt (Real.pi / 2) * ((A_r : ℝ) - 3 * (B_r : ℝ) - 8 * (E : ℝ)) / Real.sqrt 1000)
    K_R := some (-(4 * Real.sqrt (Real.pi / 2)) * (2 * (B_i : ℝ) + (E : ℝ) * Real.pi) / Real.sqrt 1000)
    K_S := some (-(Real.sqrt (Real.pi / 2)) * ((A_r : ℝ) + (B_r : ℝ)) / Real.sqrt 1000)
    K_II := some (2 * Real.sqrt (2 * Real.pi) * (B_i : ℝ) / Real.sqrt 1000)
    K_eff_Yang := none
    K_eff_Nowell := none
    T := some (-(C : ℝ)) }

/-- FractureAnalysis._run_cjp_optimization: the optimizer outcome is an
input; a raised exception, or a returned coefficient vector that is not
of length five (the tuple unpacking A_r, B_r, B_i, C, E would raise),
falls into the except branch producing the all-NaN record. -/
noncomputable def runCjpOptimization (outcome : Except Unit (List ℚ × ℚ)) : CJPResults :=
  match outcome with
  | Except.error _ => cjpSentinel
  | Except.ok (x, cost) =>
      match x with
      | [ar, br, bi, c, e] => cjpFromCoefficients ar br bi c e cost
      | _ => cjpSentinel

/-- Result record of the Williams fit, mirroring the pydantic model
created by _create_williams_model: the fixed fields error, K_I, K_II,
K_V, T plus one a_n and one b_n field per configured order, represented
as association lists keyed by the order. -/
structure WilliamsFitResult where
  error : Option ℝ
  K_I : Option ℝ
  K_II : Option ℝ
  K_V : Option ℝ
  T : Option ℝ
  a_n : List (ℤ × Option ℚ)
  b_n : List (ℤ × Option ℚ)

/-- The all-NaN WilliamsFitResult built by the except branch of
_run_williams_optimization: the per-order fields are still generated for
the configured order list, every value NaN. -/
def williamsSentinel (terms : List ℤ) : WilliamsFitResult :=
  { error := none, K_I := none, K_II := none, K_V := none, T := none,
    a_n := terms.map fun n => (n, none),
    b_n := terms.map fun n => (n, none) }

/-- The dict comprehension of _run_williams_optimization pairing each
configured order with the coefficient at its position:
a_n = x[:len(terms)] and b_n = x[len(terms):] are passed as vals.  When
vals is shorter than terms the positional access a_n[index] raises
(IndexError), modelled as none. -/
def dictOfTerms (terms : List ℤ) (vals : List ℚ) : Option (List (ℤ × ℚ)) :=
  if terms.length ≤ vals.length then some (terms.zip vals) else none

/-- Python dict lookup on the association list built by dictOfTerms:
for duplicate keys the last binding wins; a missing key raises
(KeyError), modelled as none. -/
def dictLookup (d : List (ℤ × ℚ)) (k : ℤ) : Option ℚ :=
  (d.reverse.find? fun p => decide (p.1 = k)).map Prod.snd

/-- The try-block body of _run_williams_optimization after a successful
optimizer call returning coefficient vector x and cost: split x into the
a and b halves, key them by the configured orders, derive
K_I = sqrt(2 pi) a_1 / sqrt(1000), K_II = -sqrt(2 pi) b_1 / sqrt(1000)
and T = 4 a_2 (Kuna formula 3.45), and emit the per-order fields.
Any failing dictionary construction or lookup (missing order 1 or 2,
coefficient vector too short) yields none: the exception is then caught
by the surrounding handler. -/
noncomputable def williamsBody (terms : List ℤ) (x : List ℚ) (cost : ℚ) :
    Option WilliamsFitResult :=
  (dictOfTerms terms (x.take terms.length)).bind fun da =>
  (dictOfTerms terms (x.drop terms.length)).bind fun db =>
  (dictLookup da 1).bind fun a1 =>
  (dictLookup db 1).bind fun b1 =>
  (dictLookup da 2).bind fun a2 =>
  some { error := some (cost : ℝ)
         K_I := some (Real.sqrt (2 * Real.pi) * (a1 : ℝ) / Real.sqrt 1000)
         K_II := some (-(Real.sqrt (2 * Real.pi)) * (b1 : ℝ) / Real.sqrt 1000)
         K_V := none
         T := some (4 * (a2 : ℝ))
         a_n := terms.map fun n => (n, dictLookup da n)
         b_n := terms.map fun n => (n, dictLookup db n) }

/-- FractureAnalysis._run_williams_optimization: a raised optimizer
exception, or any exception inside the try block, is replaced by the
all-NaN sentinel record. -/
noncomputable def runWilliamsOptimization (terms : List ℤ)
    (outcome : Except Unit (List ℚ × ℚ)) : WilliamsFitResult :=
  match outcome with
  | Except.error _ => williamsSentinel terms
  | Except.ok (x, cost) => (williamsBody terms x cost).getD (williamsSentinel terms)

example : dictOfTerms [1, 2] [5, 7] = some [(1, 5), (2, 7)] := by decide
example : dictOfTerms [1, 2] [5] = none := by decide
example : dictLookup [(1, 5), (2, 7), (1, 9)] 1 = some 9 := by decide
example : dictLookup [(1, 5), (2, 7)] 3 = none := by decide

/-- Integral configuration, mirroring the fields of IntegralProperties
that FractureAnalysis reads (after ensure_defaults): the four base side
extents of the innermost path, the four per-path increments, the number
of paths, the mask tolerance and the ordered Bueckner-Williams order
list. -/
structure IntegralProperties where
  integral_size_left : ℚ
  integral_size_right : ℚ
  integral_size_bottom : ℚ
  integral_size_top : ℚ
  paths_distance_left : ℚ
  paths_distance_right : ℚ
  paths_distance_bottom : ℚ
  paths_distance_top : ℚ
  number_of_paths : ℕ
  mask_tolerance : ℚ
  buckner_williams_terms : List ℤ

/-- One PathResult returned by the external line-integral service
calculate_line_integral: the seven scalar quantities appended to
self.results plus the per-order Williams coefficient vectors.  The
purely observational fields (integration points, realized sizes, node
count, tick size) are omitted: no claim mentions them. -/
structure LineIntegral where
  j_integral : Option ℚ
  sif_k_j : Option ℚ
  sif_k_i : Option ℚ
  sif_k_ii : Option ℚ
  t_stress_chen : Option ℚ
  t_stress_sdm : Option ℚ
  t_stress_int : Option ℚ
  williams_a_n : List (Option ℚ)
  williams_b_n : List (Option ℚ)

/-- The row [j, K_J, K_I, K_II, t_chen, t_sdm, t_int] appended to
self.results for one path. -/
def rowOf (li : LineIntegral) : List (Option ℚ) :=
  [li.j_integral, li.sif_k_j, li.sif_k_i, li.sif_k_ii,
   li.t_stress_chen, li.t_stress_sdm, li.t_stress_int]

/-- The loop of _run_line_integrals: with n paths still to evaluate and
current side extents (l, r, b, t), call the service on the current
extents, record the call, then shrink left and bottom by their per-path
distances and grow right and top by theirs.  Each list entry holds the
four extents passed to the service together with the returned
PathResult. -/
def runLineIntegralsAux (service : ℚ → ℚ → ℚ → ℚ → LineIntegral)
    (dl dr db dt : ℚ) : ℕ → ℚ → ℚ → ℚ → ℚ → List ((ℚ × ℚ × ℚ × ℚ) × LineIntegral)
  | 0, _, _, _, _ => []
  | Nat.succ n, l, r, b, t =>
      ((l, r, b, t), service l r b t) ::
        runLineIntegralsAux service dl dr db dt n (l - dl) (r + dr) (b - db) (t + dt)

/-- The full sweep of _run_line_integrals before aggregation, starting
from the configured base extents and running number_of_paths
iterations. -/
def runLineIntegrals (p : IntegralProperties) (service : ℚ → ℚ → ℚ → ℚ → LineIntegral) :
    List ((ℚ × ℚ × ℚ × ℚ) × LineIntegral) :=
  runLineIntegralsAux service p.paths_distance_left p.paths_distance_right
    p.paths_distance_bottom p.paths_distance_top p.number_of_paths
    p.integral_size_left p.integral_size_right p.integral_size_bottom p.integral_size_top

/-- Column j of a rectangular numpy array stored as a list of rows. -/
def getColumn (j : ℕ) (rows : List (List (Option ℚ))) : List (Option ℚ) :=
  rows.map fun r => r.getD j none

/-- The common row length of a rectangular numpy array (the length of an
aggregated axis-0 reduction), read off the first row. -/
def headWidth (rows : List (List (Option ℚ))) : ℕ :=
  (rows.head?.map List.length).getD 0

/-- One of the three statistics records bundled into self.sifs_int:
mirrors SIFsIntegralMeanResults / SIFsIntegralMedianResults /
SIFsIntegralMeanwoOutlierResults. -/
structure SIFsVariant where
  J : Option ℚ
  K_J : Option ℚ
  K_I_interac : Option ℚ
  K_II_interac : Option ℚ
  K_I_Chen : Option ℝ
  K_II_Chen : Option ℝ
  T_Chen : Option ℚ
  T_SDM : Option ℚ
  T_interac : Option ℚ

/-- One statistics record of _aggregate_integral_results for the column
statistic f (np.nanmean, np.nanmedian or the outlier-rejected mean):
the seven scalar columns of self.results in their unpacking order, plus
K_I_Chen = sqrt(2 pi) a[term_index] / sqrt(1000) and
K_II_Chen = -sqrt(2 pi) b[term_index] / sqrt(1000) derived from the
aggregated Williams integral coefficient columns; NaN aggregates
propagate to NaN Chen values. -/
noncomputable def mkVariant (f : List (Option ℚ) → Option ℚ)
    (results aN bN : List (List (Option ℚ))) (idx : ℕ) : SIFsVariant :=
  { J := f (getColumn 0 results)
    K_J := f (getColumn 1 results)
    K_I_interac := f (getColumn 2 results)
    K_II_interac := f (getColumn 3 results)
    K_I_Chen := (f (getColumn idx aN)).map fun v : ℚ =>
      Real.sqrt (2 * Real.pi) * (v : ℝ) / Real.sqrt 1000
    K_II_Chen := (f (getColumn idx bN)).map fun v : ℚ =>
      -(Real.sqrt (2 * Real.pi)) * (v : ℝ) / Real.sqrt 1000
    T_Chen := f (getColumn 4 results)
    T_SDM := f (getColumn 5 results)
    T_interac := f (getColumn 6 results) }

/-- The axis-0 reduction of a rectangular matrix by the column statistic
f, as stored under williams_int_a_n / williams_int_b_n in
self.sifs_int. -/
def vecStats (f : List (Option ℚ) → Option ℚ) (rows : List (List (Option ℚ))) :
    List (Option ℚ) :=
  (List.range (headWidth rows)).map fun j => f (getColumn j rows)

/-- The bundle self.sifs_int produced by _aggregate_integral_results. -/
structure SifsInt where
  mean : SIFsVariant
  median : SIFsVariant
  rej_out_mean : SIFsVariant
  a_mean : List (Option ℚ)
  a_median : List (Option ℚ)
  a_rej_out_mean : List (Option ℚ)
  b_mean : List (Option ℚ)
  b_median : List (Option ℚ)
  b_rej_out_mean : List (Option ℚ)

/-- FractureAnalysis._aggregate_integral_results: mean, median and
outlier-rejected mean of every scalar column and coefficient column
(RuntimeWarnings from empty nan-reductions are suppressed, never
raised), then term_index = buckner_williams_terms.index(1), which raises
ValueError when order 1 is not configured; the subsequent positional
access into the aggregated coefficient vectors raises IndexError when
term_index is out of their range.  Either exception aborts the
aggregation (modelled as Except.error). -/
noncomputable def aggregateIntegralResults (terms : List ℤ)
    (results aN bN : List (List (Option ℚ))) : Except Unit SifsInt :=
  if 1 ∈ terms then
    if terms.indexOf 1 < headWidth aN ∧ terms.indexOf 1 < headWidth bN then
      Except.ok
        { mean := mkVariant nanmeanCol results aN bN (terms.indexOf 1)
          median := mkVariant nanmedianCol results aN bN (terms.indexOf 1)
          rej_out_mean := mkVariant (meanWoOutliersCol 2) results aN bN (terms.indexOf 1)
          a_mean := vecStats nanmeanCol aN
          a_median := vecStats nanmedianCol aN
          a_rej_out_mean := vecStats (meanWoOutliersCol 2) aN
          b_mean := vecStats nanmeanCol bN
          b_median := vecStats nanmedianCol bN
          b_rej_out_mean := vecStats (meanWoOutliersCol 2) bN }
    else Except.error ()
  else Except.error ()

/-- Whether an aggregation outcome is a raised exception. -/
def exceptRaised : Except Unit SifsInt → Bool
  | Except.ok _ => false
  | Except.error _ => true

/-- Optimization configuration together with the behaviour of the two
external optimizer calls made for it: the configured Williams order list
(self.optimization.terms) and the outcome of each optimize_* call,
Except.error standing for a raised exception. -/
structure OptimizationProperties where
  terms : List ℤ
  cjpOutcome : Except Unit (List ℚ × ℚ)
  williamsOutcome : Except Unit (List ℚ × ℚ)

/-- The observable state of a FractureAnalysis instance after run(),
together with the control-flow outcome of the run:

* res_cjp / sifs_fit: the fit result attributes; none when no
  optimization configuration was supplied (the attributes are then never
  created);
* results: the collected per-path scalar rows; none when no integral
  configuration was supplied;
* sifs_int: the aggregated bundle, none when the integral phase did not
  run or its aggregation raised;
* invocations: the arguments (left, right, bottom, top) of every call
  made to the external line-integral service, in order;
* raised: whether an exception propagated out of run(). -/
structure RunState where
  res_cjp : Option CJPResults
  sifs_fit : Option WilliamsFitResult
  results : Option (List (List (Option ℚ)))
  sifs_int : Option SifsInt
  invocations : List (ℚ × ℚ × ℚ × ℚ)
  raised : Bool

/-- FractureAnalysis.run: the fitting phase runs exactly when an
optimization configuration is present, the integral phase exactly when
an integral configuration is present.  The line-integral service is
total (an exception from it would be fatal by design and is outside the
claims); the only exception source in the model is
_aggregate_integral_results. -/
noncomputable def FractureAnalysis.run (optP : Option OptimizationProperties)
    (intP : Option IntegralProperties)
    (service : ℚ → ℚ → ℚ → ℚ → LineIntegral) : RunState :=
  match intP with
  | none =>
      { res_cjp := optP.map fun q => runCjpOptimization q.cjpOutcome
        sifs_fit := optP.map fun q => runWilliamsOptimization q.terms q.williamsOutcome
        results := none
        sifs_int := none
        invocations := []
        raised := false }
  | some props =>
      let sweep := runLineIntegrals props service
      let agg := aggregateIntegralResults props.buckner_williams_terms
        (sweep.map fun c => rowOf c.2)
        (sweep.map fun c => c.2.williams_a_n)
        (sweep.map fun c => c.2.williams_b_n)
      { res_cjp := optP.map fun q => runCjpOptimization q.cjpOutcome
        sifs_fit := optP.map fun q => runWilliamsOptimization q.terms q.williamsOutcome
        results := some (sweep.map fun c => rowOf c.2)
        sifs_int := agg.toOption
        invocations := sweep.map Prod.fst
        raised := exceptRaised agg }

theorem someVals_eq_filterMap (xs : List (Option ℚ)) : someVals xs = xs.filterMap id := by
  induction xs with
  | nil => rfl
  | cons x xs ih => cases x <;> simp [someVals, ih]

theorem someVals_perm {xs ys : List (Option ℚ)} (h : xs.Perm ys) :
    (someVals xs).Perm (someVals ys) := by
  rw [someVals_eq_filterMap, someVals_eq_filterMap]
  exact h.filterMap id

theorem nanmeanCol_perm {xs ys : List (Option ℚ)} (h : xs.Perm ys) :
    nanmeanCol xs = nanmeanCol ys := by
  have hp := someVals_perm h
  have hs := hp.sum_eq
  have hl := hp.length_eq
  unfold nanmeanCol
  cases hx : someVals xs with
  | nil =>
      rw [hx] at hp
      rw [← hp.nil_eq]
  | cons v vs =>
      rw [hx] at hs hl hp
      cases hy : someVals ys with
      | nil => rw [hy] at hp; exact absurd hp.eq_nil (by simp)
      | cons w ws =>
          rw [hy] at hs hl
          simp only [hs, hl]

theorem sortedSomeVals_perm {xs ys : List (Option ℚ)} (h : xs.Perm ys) :
    List.insertionSort (fun a b => a ≤ b) (someVals xs) =
      List.insertionSort (fun a b => a ≤ b) (someVals ys) := by
  have hp : (List.insertionSort (fun a b => a ≤ b) (someVals xs)).Perm
      (List.insertionSort (fun a b => a ≤ b) (someVals ys)) :=
    (List.perm_insertionSort _ _).trans
      ((someVals_perm h).trans (List.perm_insertionSort _ _).symm)
  exact List.eq_of_perm_of_sorted hp
    (List.sorted_insertionSort _ _) (List.sorted_insertionSort _ _)

theorem nanmedianCol_perm {xs ys : List (Option ℚ)} (h : xs.Perm ys) :
    nanmedianCol xs = nanmedianCol ys := by
  unfold nanmedianCol
  rw [sortedSomeVals_perm h]

theorem meanWoOutliersCol_perm (m : ℚ) {xs ys : List (Option ℚ)} (h : xs.Perm ys) :
    meanWoOutliersCol m xs = meanWoOutliersCol m ys := by
  unfold meanWoOutliersCol
  rw [nanmedianCol_perm h, nanmedianCol_perm (h.map (devOf (nanmedianCol ys))),
    nanmeanCol_perm h]
  cases nanmedianCol (ys.map (devOf (nanmedianCol ys))) with
  | none => rfl
  | some dv =>
      dsimp only
      by_cases hdv : dv = 0
      · rw [if_pos hdv, if_pos hdv]
      · rw [if_neg hdv, if_neg hdv]
        exact nanmeanCol_perm (h.filter (outlierKeep (nanmedianCol ys) dv m))

theorem headWidth_perm {rows rows2 : List (List (Option ℚ))} {w : ℕ}
    (h : rows.Perm rows2) (hw : ∀ r ∈ rows, r.length = w) :
    headWidth rows = headWidth rows2 := by
  cases rows with
  | nil => rw [← h.nil_eq]
  | cons r rs =>
      cases rows2 with
      | nil => exact absurd h.eq_nil (by simp)
      | cons r2 rs2 =>
          have h1 : r.length = w := hw r (by simp)
          have h2 : r2.length = w := hw r2 (h.mem_iff.mpr (by simp))
          simp [headWidth, h1, h2]

theorem getColumn_perm (j : ℕ) {rows rows2 : List (List (Option ℚ))}
    (h : rows.Perm rows2) : (getColumn j rows).Perm (getColumn j rows2) :=
  h.map _

theorem mkVariant_perm (f : List (Option ℚ) → Option ℚ)
    (hf : ∀ u v : List (Option ℚ), u.Perm v → f u = f v)
    {results results2 aN aN2 bN bN2 : List (List (Option ℚ))} (idx : ℕ)
    (hr : results.Perm results2) (ha : aN.Perm aN2) (hb : bN.Perm bN2) :
    mkVariant f results aN bN idx = mkVariant f results2 aN2 bN2 idx := by
  simp only [mkVariant, SIFsVariant.mk.injEq]
  refine ⟨hf _ _ (getColumn_perm 0 hr), hf _ _ (getColumn_perm 1 hr),
    hf _ _ (getColumn_perm 2 hr), hf _ _ (getColumn_perm 3 hr), ?_, ?_,
    hf _ _ (getColumn_perm 4 hr), hf _ _ (getColumn_perm 5 hr),
    hf _ _ (getColumn_perm 6 hr)⟩
  · rw [hf _ _ (getColumn_perm idx ha)]
  · rw [hf _ _ (getColumn_perm idx hb)]

theorem vecStats_perm (f : List (Option ℚ) → Option ℚ)
    (hf : ∀ u v : List (Option ℚ), u.Perm v → f u = f v)
    {rows rows2 : List (List (Option ℚ))} {w : ℕ}
    (h : rows.Perm rows2) (hw : ∀ r ∈ rows, r.length = w) :
    vecStats f rows = vecStats f rows2 := by
  unfold vecStats
  rw [headWidth_perm h hw]
  exact List.map_congr_left fun j _ => hf _ _ (getColumn_perm j h)

/-- Claim C8: for every 2-D path series and every permutation of its
rows, the per-quantity mean, median and outlier-rejected mean computed
by the aggregator on the permuted series equal those computed on the
original series; consequently the whole aggregation bundle is unchanged.
The width hypotheses state that the coefficient matrices are rectangular,
which np.asarray guarantees for the arrays the code builds. -/
theorem aggregator_order_invariant (terms : List ℤ)
    (results results2 aN aN2 bN bN2 : List (List (Option ℚ))) (wa wb : ℕ)
    (hr : results.Perm results2) (ha : aN.Perm aN2) (hb : bN.Perm bN2)
    (hwa : ∀ r ∈ aN, r.length = wa) (hwb : ∀ r ∈ bN, r.length = wb) :
    (∀ j : ℕ, nanmeanCol (getColumn j results) = nanmeanCol (getColumn j results2) ∧
      nanmedianCol (getColumn j results) = nanmedianCol (getColumn j results2) ∧
      meanWoOutliersCol 2 (getColumn j results) =
        meanWoOutliersCol 2 (getColumn j results2)) ∧
    aggregateIntegralResults terms results aN bN =
      aggregateIntegralResults terms results2 aN2 bN2 := by
  have hmean : ∀ u v : List (Option ℚ), u.Perm v → nanmeanCol u = nanmeanCol v :=
    fun _ _ hp => nanmeanCol_perm hp
  have hmed : ∀ u v : List (Option ℚ), u.Perm v → nanmedianCol u = nanmedianCol v :=
    fun _ _ hp => nanmedianCol_perm hp
  have hrej : ∀ u v : List (Option ℚ), u.Perm v →
      meanWoOutliersCol 2 u = meanWoOutliersCol 2 v :=
    fun _ _ hp => meanWoOutliersCol_perm 2 hp
  constructor
  · intro j
    exact ⟨hmean _ _ (getColumn_perm j hr), hmed _ _ (getColumn_perm j hr),
      hrej _ _ (getColumn_perm j hr)⟩
  · unfold aggregateIntegralResults
    rw [headWidth_perm ha hwa, headWidth_perm hb hwb]
    by_cases h1 : (1 : ℤ) ∈ terms
    · rw [if_pos h1, if_pos h1]
      by_cases h2 : terms.indexOf 1 < headWidth aN2 ∧ terms.indexOf 1 < headWidth bN2
      · rw [if_pos h2, if_pos h2]
        simp only [Except.ok.injEq, SifsInt.mk.injEq]
        exact ⟨mkVariant_perm nanmeanCol hmean _ hr ha hb,
          mkVariant_perm nanmedianCol hmed _ hr ha hb,
          mkVariant_perm (meanWoOutliersCol 2) hrej _ hr ha hb,
          vecStats_perm nanmeanCol hmean ha hwa,
          vecStats_perm nanmedianCol hmed ha hwa,
          vecStats_perm (meanWoOutliersCol 2) hrej ha hwa,
          vecStats_perm nanmeanCol hmean hb hwb,
          vecStats_perm nanmedianCol hmed hb hwb,
          vecStats_perm (meanWoOutliersCol 2) hrej hb hwb⟩
      · rw [if_neg h2, if_neg h2]
    · rw [if_neg h1, if_neg h1]

/-- Witness for C8 at a concrete two-path series and its row swap. -/
theorem aggregator_order_invariant_witness :
    aggregateIntegralResults [1]
      [[some 1, some 2, some 3, some 4, some 5, some 6, some 7],
       [some 8, none, some 9, none, some 10, none, some 11]]
      [[some 1], [some 2]] [[some 3], [some 4]] =
    aggregateIntegralResults [1]
      [[some 8, none, some 9, none, some 10, none, some 11],
       [some 1, some 2, some 3, some 4, some 5, some 6, some 7]]
      [[some 2], [some 1]] [[some 4], [some 3]] :=
  (aggregator_order_invariant [1]
    [[some 1, some 2, some 3, some 4, some 5, some 6, some 7],
     [some 8, none, some 9, none, some 10, none, some 11]]
    [[some 8, none, some 9, none, some 10, none, some 11],
     [some 1, some 2, some 3, some 4, some 5, some 6, some 7]]
    [[some 1], [some 2]] [[some 2], [some 1]]
    [[some 3], [some 4]] [[some 4], [some 3]] 1 1
    (by decide) (by decide) (by decide) (by decide) (by decide)).2

/-- Claim C3: whenever the median absolute deviation of a quantity
column is zero (and the column has at least one non-missing value), the
outlier-rejected mean with threshold m = 2 equals the plain mean of the
non-missing values of the column: no path is rejected. -/
theorem mad_zero_keeps_all_paths (xs : List (Option ℚ))
    (hmad : nanmedianCol (xs.map (devOf (nanmedianCol xs))) = some 0)
    (hvals : someVals xs ≠ []) :
    meanWoOutliersCol 2 xs = nanmeanCol xs ∧
    ∃ v vs, someVals xs = v :: vs ∧
      meanWoOutliersCol 2 xs = some ((v :: vs).sum / ((v :: vs).length : ℚ)) := by
  have h1 : meanWoOutliersCol 2 xs = nanmeanCol xs := by
    unfold meanWoOutliersCol
    rw [hmad]
    norm_num
  refine ⟨h1, ?_⟩
  cases hx : someVals xs with
  | nil => exact absurd hx hvals
  | cons v vs =>
      refine ⟨v, vs, rfl, ?_⟩
      rw [h1]
      unfold nanmeanCol
      rw [hx]

/-- Witness for C3 on the column [1, 1, 3], whose MAD is zero. -/
theorem mad_zero_keeps_all_paths_witness :
    meanWoOutliersCol 2 [some 1, some 1, some 3] =
      nanmeanCol [some 1, some 1, some 3] :=
  (mad_zero_keeps_all_paths [some 1, some 1, some 3]
    (by norm_num [nanmedianCol, someVals, medianAux, devOf, ratAbs])
    (by decide)).1

theorem someVals_eq_nil {xs : List (Option ℚ)} (h : ∀ x ∈ xs, x = none) :
    someVals xs = [] := by
  induction xs with
  | nil => rfl
  | cons y ys ih =>
      have h0 : y = none := h y (by simp)
      subst h0
      exact ih fun x hx => h x (by simp [hx])

theorem nanmeanCol_eq_none {xs : List (Option ℚ)} (h : ∀ x ∈ xs, x = none) :
    nanmeanCol xs = none := by
  unfold nanmeanCol
  rw [someVals_eq_nil h]

theorem nanmedianCol_eq_none {xs : List (Option ℚ)} (h : ∀ x ∈ xs, x = none) :
    nanmedianCol xs = none := by
  unfold nanmedianCol
  rw [someVals_eq_nil h]
  rfl

/-- Claim C5: a quantity column in which the value of every path is NaN
aggregates, without any exception (the aggregation functions are total),
to NaN mean, NaN median and NaN outlier-rejected mean. -/
theorem all_nan_column_aggregates (xs : List (Option ℚ))
    (h : ∀ x ∈ xs, x = none) :
    nanmeanCol xs = none ∧ nanmedianCol xs = none ∧
      meanWoOutliersCol 2 xs = none := by
  have hmed : nanmedianCol xs = none := nanmedianCol_eq_none h
  refine ⟨nanmeanCol_eq_none h, hmed, ?_⟩
  unfold meanWoOutliersCol
  have hdev : ∀ y ∈ xs.map (devOf (nanmedianCol xs)), y = none := by
    intro y hy
    rcases List.mem_map.mp hy with ⟨x, hx, hxy⟩
    have h0 : x = none := h x hx
    rw [← hxy, h0, hmed]
    rfl
  rw [nanmedianCol_eq_none hdev]
  rfl

/-- Witness for C5 on a two-path all-NaN column. -/
theorem all_nan_column_aggregates_witness :
    nanmeanCol [none, none] = none ∧ nanmedianCol [none, none] = none ∧
      meanWoOutliersCol 2 [none, none] = none :=
  all_nan_column_aggregates [none, none] (by decide)

theorem runLineIntegralsAux_length (service : ℚ → ℚ → ℚ → ℚ → LineIntegral)
    (dl dr db dt : ℚ) :
    ∀ (n : ℕ) (l r b t : ℚ),
      (runLineIntegralsAux service dl dr db dt n l r b t).length = n := by
  intro n
  induction n with
  | zero => intro l r b t; rfl
  | succ m ih => intro l r b t; simp [runLineIntegralsAux, ih]

theorem runLineIntegralsAux_get (service : ℚ → ℚ → ℚ → ℚ → LineIntegral)
    (dl dr db dt : ℚ) :
    ∀ (i n : ℕ) (l r b t : ℚ), i < n →
      (runLineIntegralsAux service dl dr db dt n l r b t).get? i =
        some ((l - i * dl, r + i * dr, b - i * db, t + i * dt),
          service (l - i * dl) (r + i * dr) (b - i * db) (t + i * dt)) := by
  intro i
  induction i with
  | zero =>
      intro n l r b t hn
      cases n with
      | zero => omega
      | succ m =>
          simp [runLineIntegralsAux]
  | succ i ih =>
      intro n l r b t hn
      cases n with
      | zero => omega
      | succ m =>
          have h2 : i < m := Nat.lt_of_succ_lt_succ hn
          have e1 : l - dl - (i : ℚ) * dl = l - ((i + 1 : ℕ) : ℚ) * dl := by push_cast; ring
          have e2 : r + dr + (i : ℚ) * dr = r + ((i + 1 : ℕ) : ℚ) * dr := by push_cast; ring
          have e3 : b - db - (i : ℚ) * db = b - ((i + 1 : ℕ) : ℚ) * db := by push_cast; ring
          have e4 : t + dt + (i : ℚ) * dt = t + ((i + 1 : ℕ) : ℚ) * dt := by push_cast; ring
          have hih := ih m (l - dl) (r + dr) (b - db) (t + dt) h2
          rw [e1, e2, e3, e4] at hih
          simpa [runLineIntegralsAux] using hih

theorem run_some_invocations (optP : Option OptimizationProperties)
    (p : IntegralProperties) (service : ℚ → ℚ → ℚ → ℚ → LineIntegral) :
    (FractureAnalysis.run optP (some p) service).invocations =
      (runLineIntegrals p service).map Prod.fst := rfl

theorem run_some_results (optP : Option OptimizationProperties)
    (p : IntegralProperties) (service : ℚ → ℚ → ℚ → ℚ → LineIntegral) :
    (FractureAnalysis.run optP (some p) service).results =
      some ((runLineIntegrals p service).map fun c => rowOf c.2) := rfl

/-- Claim C1: with number_of_paths = n (n at least 1), the sweep calls
the line-integral service exactly n times and collects exactly n
per-path result rows, and the i-th call (0-indexed) receives
left = base_left - i * increment_left, right = base_right +
i * increment_right, bottom = base_bottom - i * increment_bottom,
top = base_top + i * increment_top. -/
theorem path_sweep_extents (optP : Option OptimizationProperties)
    (p : IntegralProperties) (service : ℚ → ℚ → ℚ → ℚ → LineIntegral)
    (hn : 1 ≤ p.number_of_paths) :
    (FractureAnalysis.run optP (some p) service).invocations.length =
      p.number_of_paths ∧
    (∃ rows, (FractureAnalysis.run optP (some p) service).results = some rows ∧
      rows.length = p.number_of_paths) ∧
    ∀ i : ℕ, i < p.number_of_paths →
      (FractureAnalysis.run optP (some p) service).invocations.get? i =
        some (p.integral_size_left - i * p.paths_distance_left,
          p.integral_size_right + i * p.paths_distance_right,
          p.integral_size_bottom - i * p.paths_distance_bottom,
          p.integral_size_top + i * p.paths_distance_top) := by
  have hlen : (runLineIntegrals p service).length = p.number_of_paths :=
    runLineIntegralsAux_length service _ _ _ _ p.number_of_paths _ _ _ _
  refine ⟨?_, ?_, ?_⟩
  · rw [run_some_invocations]
    simp [hlen]
  · exact ⟨_, run_some_results optP p service, by simp [hlen]⟩
  · intro i hi
    rw [run_some_invocations, List.get?_map]
    unfold runLineIntegrals
    rw [runLineIntegralsAux_get service _ _ _ _ i p.number_of_paths _ _ _ _ hi]
    rfl

/-- Witness for C1: a concrete two-path sweep. -/
theorem path_sweep_extents_witness :
    (FractureAnalysis.run none
        (some ⟨10, 5, 4, 6, 1, 2, 1, 3, 2, 0, [1]⟩)
        (fun _ _ _ _ => ⟨none, none, none, none, none, none, none, [], []⟩)).invocations.length
      = 2 ∧
    (∃ rows, (FractureAnalysis.run none
        (some ⟨10, 5, 4, 6, 1, 2, 1, 3, 2, 0, [1]⟩)
        (fun _ _ _ _ => ⟨none, none, none, none, none, none, none, [], []⟩)).results
      = some rows ∧ rows.length = 2) := by
  have h := path_sweep_extents none ⟨10, 5, 4, 6, 1, 2, 1, 3, 2, 0, [1]⟩
    (fun _ _ _ _ => ⟨none, none, none, none, none, none, none, [], []⟩) (by decide)
  exact ⟨h.1, h.2.1⟩

theorem run_res_cjp (p : OptimizationProperties) (intP : Option IntegralProperties)
    (service : ℚ → ℚ → ℚ → ℚ → LineIntegral) :
    (FractureAnalysis.run (some p) intP service).res_cjp =
      some (runCjpOptimization p.cjpOutcome) := by
  cases intP <;> rfl

theorem run_sifs_fit (p : OptimizationProperties) (intP : Option IntegralProperties)
    (service : ℚ → ℚ → ℚ → ℚ → LineIntegral) :
    (FractureAnalysis.run (some p) intP service).sifs_fit =
      some (runWilliamsOptimization p.terms p.williamsOutcome) := by
  cases intP <;> rfl

theorem run_invocations_indep (optP : Option OptimizationProperties)
    (intP : Option IntegralProperties) (service : ℚ → ℚ → ℚ → ℚ → LineIntegral) :
    (FractureAnalysis.run optP intP service).invocations =
      (FractureAnalysis.run none intP service).invocations := by
  cases intP <;> rfl

theorem run_raised_indep (optP : Option OptimizationProperties)
    (intP : Option IntegralProperties) (service : ℚ → ℚ → ℚ → ℚ → LineIntegral) :
    (FractureAnalysis.run optP intP service).raised =
      (FractureAnalysis.run none intP service).raised := by
  cases intP <;> rfl

/-- Claim C2: a raised optimizer exception during the CJP (resp.
Williams) fit yields a fit record with every numeric field NaN, does not
change whether run() raises, and leaves the other fit and the integral
sweep exactly as they would have been. -/
theorem optimizer_failure_isolated (p : OptimizationProperties)
    (intP : Option IntegralProperties) (service : ℚ → ℚ → ℚ → ℚ → LineIntegral) :
    (∀ u : Unit, p.cjpOutcome = Except.error u →
      (FractureAnalysis.run (some p) intP service).res_cjp = some cjpSentinel ∧
      cjpSentinel.error = none ∧ cjpSentinel.K_F = none ∧ cjpSentinel.K_R = none ∧
      cjpSentinel.K_S = none ∧ cjpSentinel.K_II = none ∧
      cjpSentinel.K_eff_Yang = none ∧ cjpSentinel.K_eff_Nowell = none ∧
      cjpSentinel.T = none ∧
      (FractureAnalysis.run (some p) intP service).sifs_fit =
        some (runWilliamsOptimization p.terms p.williamsOutcome) ∧
      (FractureAnalysis.run (some p) intP service).invocations =
        (FractureAnalysis.run none intP service).invocations ∧
      (FractureAnalysis.run (some p) intP service).raised =
        (FractureAnalysis.run none intP service).raised) ∧
    (∀ u : Unit, p.williamsOutcome = Except.error u →
      (FractureAnalysis.run (some p) intP service).sifs_fit =
        some (williamsSentinel p.terms) ∧
      (williamsSentinel p.terms).error = none ∧
      (williamsSentinel p.terms).K_I = none ∧
      (williamsSentinel p.terms).K_II = none ∧
      (williamsSentinel p.terms).K_V = none ∧
      (williamsSentinel p.terms).T = none ∧
      (∀ e ∈ (williamsSentinel p.terms).a_n, e.2 = none) ∧
      (∀ e ∈ (williamsSentinel p.terms).b_n, e.2 = none) ∧
      (FractureAnalysis.run (some p) intP service).res_cjp =
        some (runCjpOptimization p.cjpOutcome) ∧
      (FractureAnalysis.run (some p) intP service).invocations =
        (FractureAnalysis.run none intP service).invocations ∧
      (FractureAnalysis.run (some p) intP service).raised =
        (FractureAnalysis.run none intP service).raised) := by
  constructor
  · intro u hc
    refine ⟨?_, rfl, rfl, rfl, rfl, rfl, rfl, rfl, rfl,
      run_sifs_fit p intP service, run_invocations_indep (some p) intP service,
      run_raised_indep (some p) intP service⟩
    rw [run_res_cjp p intP service, hc]
    rfl
  · intro u hw
    refine ⟨?_, rfl, rfl, rfl, rfl, rfl, ?_, ?_,
      run_res_cjp p intP service, run_invocations_indep (some p) intP service,
      run_raised_indep (some p) intP service⟩
    · rw [run_sifs_fit p intP service, hw]
      rfl
    · intro e he
      simp only [williamsSentinel, List.mem_map] at he
      rcases he with ⟨n, _, hne⟩
      rw [← hne]
    · intro e he
      simp only [williamsSentinel, List.mem_map] at he
      rcases he with ⟨n, _, hne⟩
      rw [← hne]

/-- Witness for C2: both optimizers raise; the CJP and Williams records
are the all-NaN sentinels. -/
theorem optimizer_failure_isolated_witness :
    (FractureAnalysis.run (some ⟨[1, 2], Except.error (), Except.error ()⟩) none
        (fun _ _ _ _ => ⟨none, none, none, none, none, none, none, [], []⟩)).res_cjp
      = some cjpSentinel ∧
    (FractureAnalysis.run (some ⟨[1, 2], Except.error (), Except.error ()⟩) none
        (fun _ _ _ _ => ⟨none, none, none, none, none, none, none, [], []⟩)).sifs_fit
      = some (williamsSentinel [1, 2]) := by
  constructor
  · exact ((optimizer_failure_isolated ⟨[1, 2], Except.error (), Except.error ()⟩ none
      (fun _ _ _ _ => ⟨none, none, none, none, none, none, none, [], []⟩)).1 () rfl).1
  · exact ((optimizer_failure_isolated ⟨[1, 2], Except.error (), Except.error ()⟩ none
      (fun _ _ _ _ => ⟨none, none, none, none, none, none, none, [], []⟩)).2 () rfl).1

theorem dictLookup_zip_not_mem (terms : List ℤ) (vals : List ℚ) (k : ℤ)
    (h : k ∉ terms) : dictLookup (terms.zip vals) k = none := by
  unfold dictLookup
  rw [List.find?_eq_none.mpr]
  · rfl
  · intro q hq
    have hk : q.1 ∈ terms := by
      rcases q with ⟨a, b⟩
      exact (List.of_mem_zip (List.mem_reverse.mp hq)).1
    simp only [decide_eq_true_eq]
    intro heq
    exact h (heq ▸ hk)

theorem williamsBody_missing_order (terms : List ℤ) (x : List ℚ) (cost : ℚ)
    (h : (1 : ℤ) ∉ terms ∨ (2 : ℤ) ∉ terms) :
    williamsBody terms x cost = none := by
  cases hda : dictOfTerms terms (x.take terms.length) with
  | none => unfold williamsBody; rw [hda]; rfl
  | some da =>
      cases hdb : dictOfTerms terms (x.drop terms.length) with
      | none => unfold williamsBody; rw [hda, hdb]; rfl
      | some db =>
          have hda2 : da = terms.zip (x.take terms.length) := by
            unfold dictOfTerms at hda
            split at hda
            · exact (Option.some_inj.mp hda).symm
            · exact absurd hda (by simp)
          have hdb2 : db = terms.zip (x.drop terms.length) := by
            unfold dictOfTerms at hdb
            split at hdb
            · exact (Option.some_inj.mp hdb).symm
            · exact absurd hdb (by simp)
          unfold williamsBody
          rw [hda, hdb]
          simp only [Option.some_bind]
          rcases h with h1 | h2
          · rw [hda2, dictLookup_zip_not_mem _ _ _ h1]
            rfl
          · rw [hda2, hdb2, dictLookup_zip_not_mem _ _ _ h2]
            cases dictLookup (terms.zip (x.take terms.length)) 1 with
            | none => rfl
            | some a1 =>
                simp only [Option.some_bind]
                cases dictLookup (terms.zip (x.drop terms.length)) 1 with
                | none => rfl
                | some b1 => rfl

/-- Claim C10: when the configured Williams order list lacks order 1 or
order 2, the order lookups for K_I, K_II, T fail inside the same try
block that isolates optimizer failures, so even a successful optimizer
call produces the all-NaN sentinel record (with per-order fields for the
configured order list), and no exception escapes run(). -/
theorem williams_fit_missing_order_sentinel (terms : List ℤ) (x : List ℚ) (cost : ℚ)
    (h : (1 : ℤ) ∉ terms ∨ (2 : ℤ) ∉ terms) :
    runWilliamsOptimization terms (Except.ok (x, cost)) = williamsSentinel terms ∧
    ∀ (co : Except Unit (List ℚ × ℚ)) (service : ℚ → ℚ → ℚ → ℚ → LineIntegral),
      (FractureAnalysis.run (some ⟨terms, co, Except.ok (x, cost)⟩) none
        service).raised = false := by
  constructor
  · show (williamsBody terms x cost).getD (williamsSentinel terms) = williamsSentinel terms
    rw [williamsBody_missing_order terms x cost h]
    rfl
  · intro co service
    rfl

/-- Witness for C10: order list [3] lacking both orders 1 and 2. -/
theorem williams_fit_missing_order_sentinel_witness :
    runWilliamsOptimization [3] (Except.ok ([5, 6], 0)) = williamsSentinel [3] :=
  (williams_fit_missing_order_sentinel [3] [5, 6] 0 (Or.inl (by decide))).1

/-- Counterexample to claim C4 as stated: for the optimizer coefficients
(A_r, B_r, B_i, C, E) = (1, 0, 0, 2, 0) the stored K_S is NOT
-sqrt(pi/2), because _run_cjp_optimization divides every
stress-intensity output by sqrt(1000) before building CJPResults. -/
theorem cjp_conversion_counterexample :
    (runCjpOptimization (Except.ok ([1, 0, 0, 2, 0], 0))).K_S ≠
      some (-(Real.sqrt (Real.pi / 2))) := by
  have hval : (runCjpOptimization (Except.ok ([1, 0, 0, 2, 0], 0))).K_S =
      some (-(Real.sqrt (Real.pi / 2)) / Real.sqrt 1000) := by
    show (cjpFromCoefficients 1 0 0 2 0 0).K_S = _
    unfold cjpFromCoefficients
    norm_num
  rw [hval]
  intro hK
  have heq : -(Real.sqrt (Real.pi / 2)) / Real.sqrt 1000 = -(Real.sqrt (Real.pi / 2)) :=
    Option.some_inj.mp hK
  have hs : 0 < Real.sqrt (Real.pi / 2) := Real.sqrt_pos.mpr (by positivity)
  have ht : (1 : ℝ) < Real.sqrt 1000 := by
    have h2 := Real.sqrt_lt_sqrt (by norm_num : (0 : ℝ) ≤ 1) (by norm_num : (1 : ℝ) < 1000)
    rwa [Real.sqrt_one] at h2
  have ht0 : Real.sqrt 1000 ≠ 0 := by positivity
  rw [div_eq_iff ht0] at heq
  nlinarith [mul_pos hs (sub_pos.mpr ht)]

/-- Claim C4 as amended: for coefficients (1, 0, 0, 2, 0) the resulting
CJPResults has T = -2 and K_S = -sqrt(pi/2) / sqrt(1000) (the stated
value divided by the m-to-mm conversion factor sqrt(1000)). -/
theorem cjp_conversion_amended (cost : ℚ) :
    (runCjpOptimization (Except.ok ([1, 0, 0, 2, 0], cost))).T = some (-2) ∧
    (runCjpOptimization (Except.ok ([1, 0, 0, 2, 0], cost))).K_S =
      some (-(Real.sqrt (Real.pi / 2)) / Real.sqrt 1000) := by
  constructor
  · show (cjpFromCoefficients 1 0 0 2 0 cost).T = _
    unfold cjpFromCoefficients
    norm_num
  · show (cjpFromCoefficients 1 0 0 2 0 cost).K_S = _
    unfold cjpFromCoefficients
    norm_num

/-- Claim C7: when the Williams optimizer succeeds and the coefficient
dictionaries resolve a_1 = 1, b_1 = 1, a_2 = 1/2, the fit record has
K_I = sqrt(2 pi)/sqrt(1000), K_II = -sqrt(2 pi)/sqrt(1000), T = 2. -/
theorem williams_conversion (terms : List ℤ) (x : List ℚ) (cost : ℚ)
    (da db : List (ℤ × ℚ))
    (hda : dictOfTerms terms (x.take terms.length) = some da)
    (hdb : dictOfTerms terms (x.drop terms.length) = some db)
    (ha1 : dictLookup da 1 = some 1)
    (hb1 : dictLookup db 1 = some 1)
    (ha2 : dictLookup da 2 = some (1 / 2)) :
    (runWilliamsOptimization terms (Except.ok (x, cost))).K_I =
      some (Real.sqrt (2 * Real.pi) / Real.sqrt 1000) ∧
    (runWilliamsOptimization terms (Except.ok (x, cost))).K_II =
      some (-(Real.sqrt (2 * Real.pi)) / Real.sqrt 1000) ∧
    (runWilliamsOptimization terms (Except.ok (x, cost))).T = some 2 := by
  have hrun : runWilliamsOptimization terms (Except.ok (x, cost)) =
      (williamsBody terms x cost).getD (williamsSentinel terms) := rfl
  rw [hrun]
  unfold williamsBody
  rw [hda, hdb]
  simp only [Option.some_bind]
  rw [ha1, hb1, ha2]
  simp only [Option.some_bind, Option.getD_some]
  refine ⟨?_, ?_, ?_⟩ <;> norm_num

/-- Witness for C7: order list [1, 2] with coefficient vector
(a_1, a_2, b_1, b_2) = (1, 1/2, 1, 0). -/
theorem williams_conversion_witness :
    (runWilliamsOptimization [1, 2] (Except.ok ([1, 1 / 2, 1, 0], 0))).K_I =
      some (Real.sqrt (2 * Real.pi) / Real.sqrt 1000) ∧
    (runWilliamsOptimization [1, 2] (Except.ok ([1, 1 / 2, 1, 0], 0))).K_II =
      some (-(Real.sqrt (2 * Real.pi)) / Real.sqrt 1000) ∧
    (runWilliamsOptimization [1, 2] (Except.ok ([1, 1 / 2, 1, 0], 0))).T = some 2 :=
  williams_conversion [1, 2] [1, 1 / 2, 1, 0] 0 [(1, 1), (2, 1 / 2)] [(1, 1), (2, 0)]
    rfl rfl rfl rfl rfl

/-- Claim C9: when order 1 is absent from the configured
Bueckner-Williams order list, the aggregation raises (list.index(1)
raises ValueError) and the exception propagates out of run(); when order
1 is present, the K_I_Chen of each statistic variant is sqrt(2 pi) times the
correspondingly aggregated entry of the a-coefficient column at the
index of order 1, divided by sqrt(1000), and K_II_Chen is the negated
analogue from the b-coefficient column. -/
theorem chen_derivation (terms : List ℤ) (results aN bN : List (List (Option ℚ)))
    (optP : Option OptimizationProperties) (props : IntegralProperties)
    (service : ℚ → ℚ → ℚ → ℚ → LineIntegral)
    (hterms : props.buckner_williams_terms = terms) :
    ((1 : ℤ) ∉ terms →
      aggregateIntegralResults terms results aN bN = Except.error () ∧
      (FractureAnalysis.run optP (some props) service).raised = true) ∧
    ((1 : ℤ) ∈ terms → terms.indexOf 1 < headWidth aN →
      terms.indexOf 1 < headWidth bN →
      ∃ s, aggregateIntegralResults terms results aN bN = Except.ok s ∧
        s.mean.K_I_Chen = (nanmeanCol (getColumn (terms.indexOf 1) aN)).map
          (fun v : ℚ => Real.sqrt (2 * Real.pi) * (v : ℝ) / Real.sqrt 1000) ∧
        s.median.K_I_Chen = (nanmedianCol (getColumn (terms.indexOf 1) aN)).map
          (fun v : ℚ => Real.sqrt (2 * Real.pi) * (v : ℝ) / Real.sqrt 1000) ∧
        s.rej_out_mean.K_I_Chen =
          (meanWoOutliersCol 2 (getColumn (terms.indexOf 1) aN)).map
          (fun v : ℚ => Real.sqrt (2 * Real.pi) * (v : ℝ) / Real.sqrt 1000) ∧
        s.mean.K_II_Chen = (nanmeanCol (getColumn (terms.indexOf 1) bN)).map
          (fun v : ℚ => -(Real.sqrt (2 * Real.pi)) * (v : ℝ) / Real.sqrt 1000) ∧
        s.median.K_II_Chen = (nanmedianCol (getColumn (terms.indexOf 1) bN)).map
          (fun v : ℚ => -(Real.sqrt (2 * Real.pi)) * (v : ℝ) / Real.sqrt 1000) ∧
        s.rej_out_mean.K_II_Chen =
          (meanWoOutliersCol 2 (getColumn (terms.indexOf 1) bN)).map
          (fun v : ℚ => -(Real.sqrt (2 * Real.pi)) * (v : ℝ) / Real.sqrt 1000)) := by
  constructor
  · intro h1
    constructor
    · unfold aggregateIntegralResults
      rw [if_neg h1]
    · show exceptRaised (aggregateIntegralResults props.buckner_williams_terms
        ((runLineIntegrals props service).map fun c => rowOf c.2)
        ((runLineIntegrals props service).map fun c => c.2.williams_a_n)
        ((runLineIntegrals props service).map fun c => c.2.williams_b_n)) = true
      rw [hterms]
      unfold aggregateIntegralResults
      rw [if_neg h1]
      rfl
  · intro h1 hwa hwb
    have hagg : aggregateIntegralResults terms results aN bN = Except.ok
        { mean := mkVariant nanmeanCol results aN bN (terms.indexOf 1)
          median := mkVariant nanmedianCol results aN bN (terms.indexOf 1)
          rej_out_mean := mkVariant (meanWoOutliersCol 2) results aN bN (terms.indexOf 1)
          a_mean := vecStats nanmeanCol aN
          a_median := vecStats nanmedianCol aN
          a_rej_out_mean := vecStats (meanWoOutliersCol 2) aN
          b_mean := vecStats nanmeanCol bN
          b_median := vecStats nanmedianCol bN
          b_rej_out_mean := vecStats (meanWoOutliersCol 2) bN } := by
      unfold aggregateIntegralResults
      rw [if_pos h1, if_pos ⟨hwa, hwb⟩]
    exact ⟨_, hagg, rfl, rfl, rfl, rfl, rfl, rfl⟩

/-- Witness for C9: order list [2] makes aggregation raise; order list
[1] yields the Chen mean formula at index 0. -/
theorem chen_derivation_witness :
    aggregateIntegralResults [2] [] [] [] = Except.error () ∧
    (∃ s, aggregateIntegralResults [1] [] [[some 3]] [[some 4]] = Except.ok s ∧
      s.mean.K_I_Chen = (nanmeanCol (getColumn 0 [[some 3]])).map
        (fun v : ℚ => Real.sqrt (2 * Real.pi) * (v : ℝ) / Real.sqrt 1000)) := by
  constructor
  · exact ((chen_derivation [2] [] [] [] none ⟨0, 0, 0, 0, 0, 0, 0, 0, 1, 0, [2]⟩
      (fun _ _ _ _ => ⟨none, none, none, none, none, none, none, [], []⟩) rfl).1
        (by decide)).1
  · obtain ⟨s, hs, h1, h2, h3, h4, h5, h6⟩ :=
      (chen_derivation [1] [] [[some 3]] [[some 4]] none ⟨0, 0, 0, 0, 0, 0, 0, 0, 1, 0, [1]⟩
        (fun _ _ _ _ => ⟨none, none, none, none, none, none, none, [], []⟩) rfl).2
        (by decide) (by decide) (by decide)
    exact ⟨s, hs, h1⟩

/-- Claim C6: an absent optimization configuration skips fitting
entirely (no fit-related output), an absent integral configuration skips
the path sweep (no aggregated integral output and the line-integral
service is never invoked); with only an optimization configuration the
run yields fit results and nothing else. -/
theorem configuration_gating (optP : Option OptimizationProperties)
    (intP : Option IntegralProperties) (service : ℚ → ℚ → ℚ → ℚ → LineIntegral) :
    (optP = none →
      (FractureAnalysis.run optP intP service).res_cjp = none ∧
      (FractureAnalysis.run optP intP service).sifs_fit = none) ∧
    (intP = none →
      (FractureAnalysis.run optP intP service).sifs_int = none ∧
      (FractureAnalysis.run optP intP service).results = none ∧
      (FractureAnalysis.run optP intP service).invocations = [] ∧
      (FractureAnalysis.run optP intP service).raised = false) ∧
    (∀ q : OptimizationProperties, optP = some q → intP = none →
      (FractureAnalysis.run optP intP service).res_cjp =
        some (runCjpOptimization q.cjpOutcome) ∧
      (FractureAnalysis.run optP intP service).sifs_fit =
        some (runWilliamsOptimization q.terms q.williamsOutcome) ∧
      (FractureAnalysis.run optP intP service).sifs_int = none ∧
      (FractureAnalysis.run optP intP service).invocations = []) := by
  refine ⟨?_, ?_, ?_⟩
  · intro h
    subst h
    cases intP <;> exact ⟨rfl, rfl⟩
  · intro h
    subst h
    exact ⟨rfl, rfl, rfl, rfl⟩
  · intro q hq hi
    subst hq
    subst hi
    exact ⟨rfl, rfl, rfl, rfl⟩

/-- Witness for C6: a run with no configuration at all, and a run with
only an optimization configuration. -/
theorem configuration_gating_witness :
    (FractureAnalysis.run none none
        (fun _ _ _ _ => ⟨none, none, none, none, none, none, none, [], []⟩)).res_cjp
      = none ∧
    (FractureAnalysis.run (some ⟨[1], Except.error (), Except.error ()⟩) none
        (fun _ _ _ _ => ⟨none, none, none, none, none, none, none, [], []⟩)).sifs_int
      = none ∧
    (FractureAnalysis.run (some ⟨[1], Except.error (), Except.error ()⟩) none
        (fun _ _ _ _ => ⟨none, none, none, none, none, none, none, [], []⟩)).invocations
      = [] := by
  refine ⟨?_, ?_, ?_⟩
  · exact ((configuration_gating none none
      (fun _ _ _ _ => ⟨none, none, none, none, none, none, none, [], []⟩)).1 rfl).1
  · exact ((configuration_gating (some ⟨[1], Except.error (), Except.error ()⟩) none
      (fun _ _ _ _ => ⟨none, none, none, none, none, none, none, [], []⟩)).2.2
        ⟨[1], Except.error (), Except.error ()⟩ rfl rfl).2.2.1
  · exact ((configuration_gating (some ⟨[1], Except.error (), Except.error ()⟩) none
      (fun _ _ _ _ => ⟨none, none, none, none, none, none, none, [], []⟩)).2.2
        ⟨[1], Except.error (), Except.error ()⟩ rfl rfl).2.2.2
